import Mathlib

/-!
Shallow embedding of the simple_tor SOCKS4 proxy core
(src/socks4.rs, src/connection.rs, src/config.rs).

Byte streams are lists of Nat (each element a byte value 0..255 on real
inputs). Reading is state-passing: each reader primitive returns the value
read (or a decode error) together with the remaining stream, mirroring a
cursor advancing over an async stream. Outbound connects and client-side
frame writes are fallible; their outcomes are supplied as oracles so that
error-handling paths of the session can be examined.
-/

namespace SimpleTor

/-- Protocol constants from src/socks4.rs. -/
def SOCKS4_VERSION : Nat := 4

def SOCKS4_CONNECT : Nat := 1

def SOCKS4_BIND : Nat := 2

def SOCKS4_REPLY_VERSION : Nat := 0

def SOCKS4_REQUEST_GRANTED : Nat := 0x5A

def SOCKS4_REQUEST_REJECTED : Nat := 0x5B

/-- Decode errors, one per bail site of Socks4Request::read_from plus the
underlying-read failure (unexpected end of stream). -/
inductive DecodeError where
  | protocolVersionMismatch (got : Nat)
  | unsupportedCommand (got : Nat)
  | userIdTooLong
  | streamClosed
deriving DecidableEq

/-- The decoded SOCKS4 request (Socks4Request in src/socks4.rs). -/
structure Socks4Request where
  command : Nat
  dst_port : Nat
  dst_ip : List Nat
  userid : List Nat
deriving DecidableEq

/-- One byte from the stream; fails when the stream is exhausted
(tokio read_u8 returning UnexpectedEof). -/
def read_u8 : List Nat → Except DecodeError Nat × List Nat
  | [] => (.error .streamClosed, [])
  | b :: r => (.ok b, r)

/-- Two bytes big-endian (tokio read_u16). -/
def read_u16 (s : List Nat) : Except DecodeError Nat × List Nat :=
  match read_u8 s with
  | (.error e, s1) => (.error e, s1)
  | (.ok hi, s1) =>
    match read_u8 s1 with
    | (.error e, s2) => (.error e, s2)
    | (.ok lo, s2) => (.ok (256 * hi + lo), s2)

/-- Four raw bytes (read_exact into a 4-byte array). -/
def read_exact4 (s : List Nat) : Except DecodeError (List Nat) × List Nat :=
  match s with
  | b0 :: b1 :: b2 :: b3 :: r => (.ok [b0, b1, b2, b3], r)
  | r => (.error .streamClosed, r)

/-- The userid loop of Socks4Request::read_from: read bytes until a NUL,
accumulating them; after pushing a byte, fail with userIdTooLong when the
accumulated length exceeds 256. The Nat argument is the length accumulated
so far. -/
def read_userid : List Nat → Nat → Except DecodeError (List Nat) × List Nat
  | [], _ => (.error .streamClosed, [])
  | b :: r, len =>
    if b = 0 then (.ok [], r)
    else if 256 < len + 1 then (.error .userIdTooLong, r)
    else
      match read_userid r (len + 1) with
      | (.error e, s) => (.error e, s)
      | (.ok uid, s) => (.ok (b :: uid), s)

/-- Socks4Request::read_from: version byte (must be 4), command byte (must
be CONNECT or BIND), big-endian port, 4 IP bytes, NUL-terminated userid. -/
def read_from (s : List Nat) : Except DecodeError Socks4Request × List Nat :=
  match read_u8 s with
  | (.error e, s1) => (.error e, s1)
  | (.ok v, s1) =>
    if v ≠ SOCKS4_VERSION then (.error (.protocolVersionMismatch v), s1)
    else
      match read_u8 s1 with
      | (.error e, s2) => (.error e, s2)
      | (.ok c, s2) =>
        if c ≠ SOCKS4_CONNECT ∧ c ≠ SOCKS4_BIND then (.error (.unsupportedCommand c), s2)
        else
          match read_u16 s2 with
          | (.error e, s3) => (.error e, s3)
          | (.ok port, s3) =>
            match read_exact4 s3 with
            | (.error e, s4) => (.error e, s4)
            | (.ok ip, s4) =>
              match read_userid s4 0 with
              | (.error e, s5) => (.error e, s5)
              | (.ok uid, s5) => (.ok ⟨c, port, ip, uid⟩, s5)

/-- A socket address: IPv4 with 4 octets, or IPv6 (octets abstracted). -/
inductive SockAddr where
  | v4 (ip : List Nat) (port : Nat)
  | v6 (ip : List Nat) (port : Nat)
deriving DecidableEq

/-- Socks4Request::destination_addr. -/
def Socks4Request.destination_addr (r : Socks4Request) : SockAddr :=
  .v4 r.dst_ip r.dst_port

/-- The SOCKS4 response (Socks4Response in src/socks4.rs). -/
structure Socks4Response where
  status : Nat
  dst_port : Nat
  dst_ip : List Nat
deriving DecidableEq

/-- Socks4Response::success: GRANTED, echoing the given address. -/
def Socks4Response.success (ip : List Nat) (port : Nat) : Socks4Response :=
  ⟨SOCKS4_REQUEST_GRANTED, port, ip⟩

/-- Socks4Response::failure: REJECTED with zero port and zero IP. -/
def Socks4Response.failure : Socks4Response :=
  ⟨SOCKS4_REQUEST_REJECTED, 0, [0, 0, 0, 0]⟩

/-- Error of Socks4Response::try_from_socket_addr on an IPv6 address. -/
inductive AddrError where
  | unsupportedAddressFamily
deriving DecidableEq

/-- Socks4Response::try_from_socket_addr. -/
def Socks4Response.try_from_socket_addr : SockAddr → Except AddrError Socks4Response
  | .v4 ip p => .ok (Socks4Response.success ip p)
  | .v6 _ _ => .error .unsupportedAddressFamily

/-- Socks4Response::write_to: reply version 0, status, big-endian port,
4 IP octets (8 bytes total). -/
def Socks4Response.write_to (r : Socks4Response) : List Nat :=
  [SOCKS4_REPLY_VERSION, r.status, r.dst_port / 256, r.dst_port % 256] ++ r.dst_ip

/-- ProxyMode from src/config.rs. -/
inductive ProxyMode where
  | direct (addr : SockAddr)
  | socks4
deriving DecidableEq

/-- ProxyConfig from src/config.rs. -/
structure ProxyConfig where
  listen_addr : SockAddr
  mode : ProxyMode
deriving DecidableEq

/-- ProxyConfig::with_buffer_size: discards its argument and returns the
configuration unchanged. -/
def ProxyConfig.with_buffer_size (c : ProxyConfig) (_size : Nat) : ProxyConfig := c

/-- ProxyConfig::with_timeout: discards its argument and returns the
configuration unchanged. -/
def ProxyConfig.with_timeout (c : ProxyConfig) (_seconds : Nat) : ProxyConfig := c

/-- ProxyConfig::with_listen_addr. -/
def ProxyConfig.with_listen_addr (c : ProxyConfig) (addr : SockAddr) : ProxyConfig :=
  { c with listen_addr := addr }

/-- ProxyConfig::with_target_addr. -/
def ProxyConfig.with_target_addr (c : ProxyConfig) (addr : SockAddr) : ProxyConfig :=
  { c with mode := .direct addr }

/-- How a session of ConnectionHandler::handle can terminate with an error:
a decode failure from the handshake, the bail on a non-CONNECT command, a
propagated client-write failure, or a connect failure (the Nat payloads
stand for the concrete io error values). -/
inductive SessionError where
  | decodeFailed (e : DecodeError)
  | unsupportedCommand (cmd : Nat)
  | frameWriteFailed (e : Nat)
  | connectFailed (e : Nat)
deriving DecidableEq

/-- One observable event on the client socket: a response-frame write issued
by the session, or a chunk of forwarded payload bytes. -/
inductive ClientEvent where
  | frame (bytes : List Nat)
  | payload (chunk : List Nat)
deriving DecidableEq

/-- Boolean discriminator for frame events. -/
def isFrameEvent : ClientEvent → Bool
  | .frame _ => true
  | .payload _ => false

instance instDecEqExcept {ε α : Type} [DecidableEq ε] [DecidableEq α] :
    DecidableEq (Except ε α) := fun a b =>
  match a, b with
  | .ok x, .ok y =>
    if h : x = y then isTrue (congrArg Except.ok h)
    else isFalse (fun hh => h (Except.ok.inj hh))
  | .error x, .error y =>
    if h : x = y then isTrue (congrArg Except.error h)
    else isFalse (fun hh => h (Except.error.inj hh))
  | .ok _, .error _ => isFalse (fun hh => Except.noConfusion hh)
  | .error _, .ok _ => isFalse (fun hh => Except.noConfusion hh)

/-- What a finished session produced: the ordered client-socket events, its
Result, and how many outbound connect attempts it made. -/
structure SessionOutcome where
  clientEvents : List ClientEvent
  result : Except SessionError Unit
  connectAttempts : Nat
deriving DecidableEq

/-- Splitting a stream into the successive chunks a 4096-byte read buffer
yields. -/
def chunks4096 (l : List Nat) : List (List Nat) :=
  if h : l = [] then []
  else l.take 4096 :: chunks4096 (l.drop 4096)
termination_by l.length
decreasing_by
  simp only [List.length_drop]
  have : l.length ≠ 0 := fun hz => h (List.eq_nil_of_length_eq_zero hz)
  omega

/-- The payload chunks forwarded server-to-client during the forwarding
phase, as client events. -/
def payloadEvents (serverData : List Nat) : List ClientEvent :=
  (chunks4096 serverData).map ClientEvent.payload

/-- The response computed at src/connection.rs lines 55-56:
try_from_socket_addr, falling back to the failure response on error. -/
def responseFor (a : SockAddr) : Socks4Response :=
  match Socks4Response.try_from_socket_addr a with
  | .ok r => r
  | .error _ => Socks4Response.failure

/-- The Connecting-and-later phase of ConnectionHandler::handle: attempt the
outbound connect (outcome supplied by the connectOutcome oracle, indexed by
attempt number); on failure, in socks4 mode issue a failure-frame write
whose own outcome is discarded, and report the connect error; on success,
in socks4 mode write the response derived from the target (write errors
propagate), then forward traffic. forward_traffic swallows forwarding
errors and returns Ok, so the forwarding phase always yields Ok here. -/
def handleConnect (mode : ProxyMode) (target : SockAddr)
    (connectOutcome : Nat → Except Nat Unit) (frameWriteOutcome : Except Nat Unit)
    (serverData : List Nat) : SessionOutcome :=
  match connectOutcome 0 with
  | .error e =>
    match mode with
    | .socks4 => ⟨[.frame Socks4Response.failure.write_to], .error (.connectFailed e), 1⟩
    | .direct _ => ⟨[], .error (.connectFailed e), 1⟩
  | .ok _ =>
    match mode with
    | .socks4 =>
      match frameWriteOutcome with
      | .error we => ⟨[.frame (responseFor target).write_to], .error (.frameWriteFailed we), 1⟩
      | .ok _ => ⟨.frame (responseFor target).write_to :: payloadEvents serverData, .ok (), 1⟩
    | .direct _ => ⟨payloadEvents serverData, .ok (), 1⟩

/-- ConnectionHandler::handle. In direct mode the preconfigured target is
used with no frame exchange. In socks4 mode the handshake decodes one
request from clientInput; a decode error propagates with no frame written;
a non-CONNECT command causes a failure-frame write (whose error, if any,
propagates via the question-mark operator) followed by the
unsupported-command bail; otherwise the request destination becomes the
target and the session proceeds to connect. -/
def handle (mode : ProxyMode) (clientInput : List Nat)
    (connectOutcome : Nat → Except Nat Unit) (frameWriteOutcome : Except Nat Unit)
    (serverData : List Nat) : SessionOutcome :=
  match mode with
  | .direct addr => handleConnect (.direct addr) addr connectOutcome frameWriteOutcome serverData
  | .socks4 =>
    match read_from clientInput with
    | (.error e, _) => ⟨[], .error (.decodeFailed e), 0⟩
    | (.ok req, _) =>
      if req.command ≠ SOCKS4_CONNECT then
        match frameWriteOutcome with
        | .ok _ =>
          ⟨[.frame Socks4Response.failure.write_to], .error (.unsupportedCommand req.command), 0⟩
        | .error we =>
          ⟨[.frame Socks4Response.failure.write_to], .error (.frameWriteFailed we), 0⟩
      else
        handleConnect .socks4 req.destination_addr connectOutcome frameWriteOutcome serverData

/-- One observable step of forward_data: a read returning n bytes, a write
of a chunk, or a flush. -/
inductive RelayEvent where
  | read (n : Nat)
  | write (chunk : List Nat)
  | flush
deriving DecidableEq

/-- The event trace of forward_data (src/connection.rs): repeatedly read
into a 4096-byte buffer, stop on a zero-byte read, otherwise write the
chunk fully and flush before the next read. The reader is a pure in-memory
stream, as in the module's own unit test. -/
def forward_data (input : List Nat) : List RelayEvent :=
  if h : input = [] then [.read 0]
  else
    .read (min 4096 input.length) :: .write (input.take 4096) :: .flush ::
      forward_data (input.drop 4096)
termination_by input.length
decreasing_by
  simp only [List.length_drop]
  have : input.length ≠ 0 := fun hz => h (List.eq_nil_of_length_eq_zero hz)
  omega

/-- All bytes written by a relay trace, in order. -/
def writtenBytes : List RelayEvent → List Nat
  | [] => []
  | .write c :: rest => c ++ writtenBytes rest
  | _ :: rest => writtenBytes rest

/-- The read sizes occurring in a relay trace, in order. -/
def readSizes : List RelayEvent → List Nat
  | [] => []
  | .read n :: rest => n :: readSizes rest
  | _ :: rest => readSizes rest

/-- The canonical well-formed trace over a given chunk sequence: each chunk
is read, written whole, and flushed before the next chunk is touched, and
the trace ends with the zero-byte read that terminates the loop normally. -/
def flattenTrace : List (List Nat) → List RelayEvent
  | [] => [.read 0]
  | c :: rest => .read c.length :: .write c :: .flush :: flattenTrace rest

/-- Concatenation of a chunk sequence. -/
def joinChunks : List (List Nat) → List Nat
  | [] => []
  | c :: r => c ++ joinChunks r

lemma chunks4096_join : ∀ (k : Nat) (input : List Nat), input.length ≤ k →
    joinChunks (chunks4096 input) = input := by
  intro k
  induction k with
  | zero =>
    intro input hlen
    have hnil : input = [] := List.eq_nil_of_length_eq_zero (by omega)
    subst hnil
    simp [chunks4096, joinChunks]
  | succ k ih =>
    intro input hlen
    by_cases hnil : input = []
    · subst hnil
      simp [chunks4096, joinChunks]
    · rw [chunks4096, dif_neg hnil]
      have hpos : 0 < input.length := List.length_pos.mpr hnil
      have hrec := ih (input.drop 4096) (by simp [List.length_drop]; omega)
      simp [joinChunks, hrec]

lemma forward_data_eq_flattenTrace : ∀ (k : Nat) (input : List Nat), input.length ≤ k →
    forward_data input = flattenTrace (chunks4096 input) := by
  intro k
  induction k with
  | zero =>
    intro input hlen
    have hnil : input = [] := List.eq_nil_of_length_eq_zero (by omega)
    subst hnil
    simp [forward_data, chunks4096, flattenTrace]
  | succ k ih =>
    intro input hlen
    by_cases hnil : input = []
    · subst hnil
      simp [forward_data, chunks4096, flattenTrace]
    · rw [forward_data, dif_neg hnil, chunks4096, dif_neg hnil]
      have hpos : 0 < input.length := List.length_pos.mpr hnil
      have hrec := ih (input.drop 4096) (by simp [List.length_drop]; omega)
      simp [flattenTrace, hrec, List.length_take]

lemma writtenBytes_flattenTrace : ∀ (cs : List (List Nat)),
    writtenBytes (flattenTrace cs) = joinChunks cs := by
  intro cs
  induction cs with
  | nil => simp [flattenTrace, writtenBytes, joinChunks]
  | cons c r ih => simp [flattenTrace, writtenBytes, joinChunks, ih]

lemma readSizes_flattenTrace : ∀ (cs : List (List Nat)),
    readSizes (flattenTrace cs) = cs.map List.length ++ [0] := by
  intro cs
  induction cs with
  | nil => simp [flattenTrace, readSizes]
  | cons c r ih => simp [flattenTrace, readSizes, ih]

lemma flattenTrace_ends_read_zero : ∀ (cs : List (List Nat)),
    ∃ pre, flattenTrace cs = pre ++ [RelayEvent.read 0] := by
  intro cs
  induction cs with
  | nil => exact ⟨[], rfl⟩
  | cons c r ih =>
    obtain ⟨pre, hpre⟩ := ih
    exact ⟨.read c.length :: .write c :: .flush :: pre, by simp [flattenTrace, hpre]⟩

lemma chunks4096_length_le : ∀ (k : Nat) (input : List Nat), input.length ≤ k →
    ∀ c ∈ chunks4096 input, c.length ≤ 4096 := by
  intro k
  induction k with
  | zero =>
    intro input hlen
    have hnil : input = [] := List.eq_nil_of_length_eq_zero (by omega)
    subst hnil
    simp [chunks4096]
  | succ k ih =>
    intro input hlen c hc
    by_cases hnil : input = []
    · subst hnil
      simp [chunks4096] at hc
    · rw [chunks4096, dif_neg hnil, List.mem_cons] at hc
      have hpos : 0 < input.length := List.length_pos.mpr hnil
      rcases hc with hc | hc
      · subst hc
        simp [List.length_take]
      · exact ih (input.drop 4096) (by simp [List.length_drop]; omega) c hc

/-- C4: forward_data copies its input to its output exactly: the bytes
written equal the bytes read, byte-identical and in order; the trace is the
canonical read-write-flush-per-chunk trace over the 4096-byte chunking of
the input (each chunk fully written and flushed before the next read); and
the trace ends with the zero-byte read on which the loop terminates
normally. -/
theorem C4_forward_data_exact_copy (input : List Nat) :
    writtenBytes (forward_data input) = input ∧
    forward_data input = flattenTrace (chunks4096 input) ∧
    (∃ pre, forward_data input = pre ++ [RelayEvent.read 0]) := by
  have heq := forward_data_eq_flattenTrace input.length input le_rfl
  have hjoin := chunks4096_join input.length input le_rfl
  refine ⟨?_, heq, ?_⟩
  · rw [heq, writtenBytes_flattenTrace, hjoin]
  · rw [heq]
    exact flattenTrace_ends_read_zero (chunks4096 input)

/-- C5: when the first byte of the stream is not 0x04, decoding fails with
protocolVersionMismatch and the stream state shows exactly the version byte
consumed, nothing further. -/
theorem C5_version_mismatch (v : Nat) (rest : List Nat) (h : v ≠ 4) :
    read_from (v :: rest) = (.error (.protocolVersionMismatch v), rest) := by
  simp [read_from, read_u8, SOCKS4_VERSION, h]

/-- Witness for C5 at v equal 5. -/
theorem C5_version_mismatch_witness :
    (5 : Nat) ≠ 4 ∧
    read_from (5 :: [1, 2, 3]) = (.error (.protocolVersionMismatch 5), [1, 2, 3]) :=
  ⟨by decide, C5_version_mismatch 5 [1, 2, 3] (by decide)⟩

/-- C8: try_from_socket_addr maps every IPv4 address to a GRANTED response
echoing its IP and port, fails with unsupportedAddressFamily on every IPv6
address, and in that case the session-side computation responseFor
substitutes the canonical failure response instead of propagating the
error. -/
theorem C8_try_from_socket_addr :
    (∀ ip p, Socks4Response.try_from_socket_addr (.v4 ip p) =
      .ok ⟨SOCKS4_REQUEST_GRANTED, p, ip⟩) ∧
    (∀ ip p, Socks4Response.try_from_socket_addr (.v6 ip p) =
      .error .unsupportedAddressFamily) ∧
    (∀ ip p, responseFor (.v6 ip p) = Socks4Response.failure) :=
  ⟨fun _ _ => rfl, fun _ _ => rfl, fun _ _ => rfl⟩

/-- C10: with_buffer_size and with_timeout return the configuration
unchanged for every configuration and argument, and every read the
forwarding loop issues uses the fixed 4096-byte buffer: no read in any
forward_data trace exceeds 4096 bytes, and a full buffer is read whenever
at least 4096 bytes are available. -/
theorem C10_config_setters_inert :
    (∀ (c : ProxyConfig) (s : Nat), c.with_buffer_size s = c) ∧
    (∀ (c : ProxyConfig) (t : Nat), c.with_timeout t = c) ∧
    (∀ input : List Nat,
      (readSizes (forward_data input)).all (fun n => decide (n ≤ 4096)) = true) ∧
    (∀ input : List Nat, 4096 ≤ input.length →
      ∃ tail, forward_data input = RelayEvent.read 4096 :: tail) := by
  refine ⟨fun _ _ => rfl, fun _ _ => rfl, ?_, ?_⟩
  · intro input
    rw [forward_data_eq_flattenTrace input.length input le_rfl, readSizes_flattenTrace]
    rw [List.all_eq_true]
    intro n hn
    simp only [List.mem_append, List.mem_map, List.mem_singleton] at hn
    rcases hn with ⟨c, hc, hcn⟩ | hn
    · have := chunks4096_length_le input.length input le_rfl c hc
      subst hcn
      simp
      omega
    · subst hn
      simp
  · intro input hlen
    have hnil : input ≠ [] := by
      intro h
      rw [h] at hlen
      simp at hlen
    rw [forward_data, dif_neg hnil]
    exact ⟨_, by rw [min_eq_left hlen]⟩

/-- Witness for C10: the setters leave a concrete configuration unchanged,
every read in a concrete trace is at most 4096 bytes, and a 4096-byte
input yields a full-buffer first read. -/
theorem C10_config_setters_inert_witness :
    (ProxyConfig.mk (.v4 [127, 0, 0, 1] 1080) .socks4).with_buffer_size 7 =
      ProxyConfig.mk (.v4 [127, 0, 0, 1] 1080) .socks4 ∧
    (ProxyConfig.mk (.v4 [127, 0, 0, 1] 1080) .socks4).with_timeout 9 =
      ProxyConfig.mk (.v4 [127, 0, 0, 1] 1080) .socks4 ∧
    (readSizes (forward_data [1, 2, 3])).all (fun n => decide (n ≤ 4096)) = true ∧
    (4096 ≤ (List.replicate 4096 0).length ∧
      ∃ tail, forward_data (List.replicate 4096 0) = RelayEvent.read 4096 :: tail) :=
  ⟨C10_config_setters_inert.1 (ProxyConfig.mk (.v4 [127, 0, 0, 1] 1080) .socks4) 7,
    C10_config_setters_inert.2.1 (ProxyConfig.mk (.v4 [127, 0, 0, 1] 1080) .socks4) 9,
    C10_config_setters_inert.2.2.1 [1, 2, 3],
    by rw [List.length_replicate],
    C10_config_setters_inert.2.2.2 (List.replicate 4096 0)
      (by rw [List.length_replicate])⟩

lemma read_userid_ok (uid : List Nat) : ∀ (len : Nat) (s : List Nat),
    (∀ b ∈ uid, b ≠ 0) → uid.length + len ≤ 256 →
    read_userid (uid ++ 0 :: s) len = (.ok uid, s) := by
  induction uid with
  | nil =>
    intro len s _ _
    simp [read_userid]
  | cons b r ih =>
    intro len s hnz hlen
    have hb : b ≠ 0 := hnz b (by simp)
    have hlen2 : r.length + (len + 1) ≤ 256 := by
      simp at hlen
      omega
    rw [List.cons_append, read_userid, if_neg hb, if_neg (by omega)]
    rw [ih (len + 1) s (fun x hx => hnz x (by simp [hx])) hlen2]

lemma read_userid_too_long (uid : List Nat) : ∀ (len : Nat) (s : List Nat),
    (∀ b ∈ uid, b ≠ 0) → uid.length + len = 257 → len ≤ 256 →
    (read_userid (uid ++ s) len).1 = .error .userIdTooLong := by
  induction uid with
  | nil =>
    intro len s _ hlen hle
    simp at hlen
    omega
  | cons b r ih =>
    intro len s hnz hlen hle
    have hb : b ≠ 0 := hnz b (by simp)
    rw [List.cons_append, read_userid, if_neg hb]
    by_cases hc : 256 < len + 1
    · rw [if_pos hc]
    · rw [if_neg hc]
      have hrec := ih (len + 1) s (fun x hx => hnz x (by simp [hx]))
        (by simp at hlen; omega) (by omega)
      rcases hru : read_userid (r ++ s) (len + 1) with ⟨res, s2⟩
      rw [hru] at hrec
      cases res with
      | error e =>
        simp at hrec
        simp [hru, hrec]
      | ok uid2 => simp at hrec

/-- C6: an otherwise-valid CONNECT request whose userid is exactly 256
non-zero bytes followed by NUL decodes successfully with that 256-byte
userid; a stream delivering 257 non-zero userid bytes before any NUL fails
with userIdTooLong. -/
theorem C6_userid_limit (hB lB i0 i1 i2 i3 : Nat) (uid uidL extra s : List Nat)
    (h256 : uid.length = 256) (hnz : ∀ b ∈ uid, b ≠ 0)
    (h257 : uidL.length = 257) (hnzL : ∀ b ∈ uidL, b ≠ 0) :
    read_from (4 :: 1 :: hB :: lB :: i0 :: i1 :: i2 :: i3 :: (uid ++ 0 :: extra)) =
      (.ok ⟨1, 256 * hB + lB, [i0, i1, i2, i3], uid⟩, extra) ∧
    (read_from (4 :: 1 :: hB :: lB :: i0 :: i1 :: i2 :: i3 :: (uidL ++ s))).1 =
      .error .userIdTooLong := by
  constructor
  · have hu := read_userid_ok uid 0 extra hnz (by omega)
    simp [read_from, read_u8, read_u16, read_exact4, SOCKS4_VERSION, SOCKS4_CONNECT,
      SOCKS4_BIND, hu]
  · have hu := read_userid_too_long uidL 0 s hnzL (by omega) (by omega)
    rcases hru : read_userid (uidL ++ s) 0 with ⟨res, s2⟩
    rw [hru] at hu
    cases res with
    | error e =>
      simp at hu
      simp [read_from, read_u8, read_u16, read_exact4, SOCKS4_VERSION, SOCKS4_CONNECT,
        SOCKS4_BIND, hru, hu]
    | ok uid2 => simp at hu

/-- Witness for C6 with a 256-byte and a 257-byte userid of letter bytes. -/
theorem C6_userid_limit_witness :
    (List.replicate 256 65).length = 256 ∧
    (∀ b ∈ List.replicate 256 65, b ≠ 0) ∧
    (List.replicate 257 65).length = 257 ∧
    (∀ b ∈ List.replicate 257 65, b ≠ 0) ∧
    (read_from (4 :: 1 :: 0 :: 80 :: 1 :: 2 :: 3 :: 4 ::
        (List.replicate 256 65 ++ 0 :: [])) =
      (.ok ⟨1, 80, [1, 2, 3, 4], List.replicate 256 65⟩, []) ∧
    (read_from (4 :: 1 :: 0 :: 80 :: 1 :: 2 :: 3 :: 4 ::
        (List.replicate 257 65 ++ []))).1 = .error .userIdTooLong) := by
  refine ⟨by rw [List.length_replicate], ?_, by rw [List.length_replicate], ?_, ?_⟩
  · intro b hb
    rw [List.eq_of_mem_replicate hb]
    omega
  · intro b hb
    rw [List.eq_of_mem_replicate hb]
    omega
  · exact C6_userid_limit 0 80 1 2 3 4 (List.replicate 256 65) (List.replicate 257 65) [] []
      (by rw [List.length_replicate])
      (fun b hb => by rw [List.eq_of_mem_replicate hb]; omega)
      (by rw [List.length_replicate])
      (fun b hb => by rw [List.eq_of_mem_replicate hb]; omega)

lemma read_from_ok_shape (s : List Nat) (req : Socks4Request) (rest : List Nat)
    (h : read_from s = (.ok req, rest)) :
    ∃ hB lB i0 i1 i2 i3 u,
      s = 4 :: req.command :: hB :: lB :: i0 :: i1 :: i2 :: i3 :: u ∧
      req.dst_port = 256 * hB + lB ∧ req.dst_ip = [i0, i1, i2, i3] := by
  rcases s with _ | ⟨v, s⟩
  · simp [read_from, read_u8] at h
  by_cases hv : v = 4
  case neg => simp [read_from, read_u8, SOCKS4_VERSION, hv] at h
  subst hv
  rcases s with _ | ⟨c, s⟩
  · simp [read_from, read_u8, SOCKS4_VERSION] at h
  by_cases hc12 : c ≠ 1 ∧ c ≠ 2
  case pos => simp [read_from, read_u8, SOCKS4_VERSION, SOCKS4_CONNECT, SOCKS4_BIND, hc12] at h
  rcases s with _ | ⟨b2, s⟩
  · simp [read_from, read_u8, read_u16, SOCKS4_VERSION, SOCKS4_CONNECT, SOCKS4_BIND,
      hc12] at h
  rcases s with _ | ⟨b3, s⟩
  · simp [read_from, read_u8, read_u16, SOCKS4_VERSION, SOCKS4_CONNECT, SOCKS4_BIND,
      hc12] at h
  rcases s with _ | ⟨a0, s⟩
  · simp [read_from, read_u8, read_u16, read_exact4, SOCKS4_VERSION, SOCKS4_CONNECT,
      SOCKS4_BIND, hc12] at h
  rcases s with _ | ⟨a1, s⟩
  · simp [read_from, read_u8, read_u16, read_exact4, SOCKS4_VERSION, SOCKS4_CONNECT,
      SOCKS4_BIND, hc12] at h
  rcases s with _ | ⟨a2, s⟩
  · simp [read_from, read_u8, read_u16, read_exact4, SOCKS4_VERSION, SOCKS4_CONNECT,
      SOCKS4_BIND, hc12] at h
  rcases s with _ | ⟨a3, u⟩
  · simp [read_from, read_u8, read_u16, read_exact4, SOCKS4_VERSION, SOCKS4_CONNECT,
      SOCKS4_BIND, hc12] at h
  simp only [read_from, read_u8, read_u16, read_exact4, SOCKS4_VERSION, SOCKS4_CONNECT,
    SOCKS4_BIND, hc12, if_false, ite_false] at h
  rcases hru : read_userid u 0 with ⟨res, s5⟩
  rw [hru] at h
  cases res with
  | error e => simp at h
  | ok uid =>
    simp at h
    obtain ⟨hreq, hrest⟩ := h
    refine ⟨b2, b3, a0, a1, a2, a3, u, ?_, ?_, ?_⟩
    · rw [← hreq]
    · rw [← hreq]
    · rw [← hreq]

/-- C3: for every genuine byte stream that decodes successfully as a
CONNECT request, encoding the success response built from the decoded
destination reproduces the request's destination port and IPv4 bytes
exactly: response bytes 2..7 equal request bytes 2..7. -/
theorem C3_connect_roundtrip (input : List Nat) (req : Socks4Request) (rest : List Nat)
    (hbytes : ∀ b ∈ input, b < 256)
    (hdec : read_from input = (.ok req, rest))
    (hcmd : req.command = SOCKS4_CONNECT) :
    ((Socks4Response.success req.dst_ip req.dst_port).write_to).drop 2 =
      (input.take 8).drop 2 := by
  obtain ⟨hB, lB, i0, i1, i2, i3, u, hs, hport, hip⟩ := read_from_ok_shape input req rest hdec
  subst hs
  have hhB : hB < 256 := hbytes hB (by simp)
  have hlB : lB < 256 := hbytes lB (by simp)
  simp [Socks4Response.write_to, Socks4Response.success, hport, hip]
  omega

/-- Witness for C3 at the specification's example request. -/
theorem C3_connect_roundtrip_witness :
    (∀ b ∈ [4, 1, 0, 80, 66, 102, 7, 99, 70, 114, 101, 100, 0], b < 256) ∧
    read_from [4, 1, 0, 80, 66, 102, 7, 99, 70, 114, 101, 100, 0] =
      (.ok ⟨1, 80, [66, 102, 7, 99], [70, 114, 101, 100]⟩, []) ∧
    (⟨1, 80, [66, 102, 7, 99], [70, 114, 101, 100]⟩ : Socks4Request).command =
      SOCKS4_CONNECT ∧
    ((Socks4Response.success [66, 102, 7, 99] 80).write_to).drop 2 =
      (([4, 1, 0, 80, 66, 102, 7, 99, 70, 114, 101, 100, 0] : List Nat).take 8).drop 2 :=
  ⟨by decide, by decide, by decide,
    C3_connect_roundtrip [4, 1, 0, 80, 66, 102, 7, 99, 70, 114, 101, 100, 0]
      ⟨1, 80, [66, 102, 7, 99], [70, 114, 101, 100]⟩ []
      (by decide) (by decide) (by decide)⟩

/-- C1 (amended): on every negotiated connection attempt whose request
frame decodes successfully, exactly one HandshakeResponse frame write is
issued to the client, before any payload bytes are forwarded: the client
event trace is that one frame followed only by payload chunks. -/
theorem C1_one_frame_after_decode (input : List Nat) (req : Socks4Request)
    (rest : List Nat) (cf : Nat → Except Nat Unit) (w : Except Nat Unit) (sd : List Nat)
    (hdec : read_from input = (.ok req, rest)) :
    ∃ f restEv,
      (handle .socks4 input cf w sd).clientEvents = .frame f :: restEv ∧
      ∀ ev ∈ restEv, ∃ c, ev = ClientEvent.payload c := by
  simp only [handle, hdec]
  by_cases hcmd : req.command ≠ SOCKS4_CONNECT
  · rw [if_pos hcmd]
    cases w with
    | ok _ => exact ⟨_, [], rfl, by simp⟩
    | error we => exact ⟨_, [], rfl, by simp⟩
  · rw [if_neg hcmd]
    simp only [handleConnect]
    cases hcf : cf 0 with
    | error e => exact ⟨_, [], rfl, by simp⟩
    | ok _ =>
      cases w with
      | error we => exact ⟨_, [], rfl, by simp⟩
      | ok _ =>
        refine ⟨_, payloadEvents sd, rfl, ?_⟩
        intro ev hev
        simp only [payloadEvents, List.mem_map] at hev
        obtain ⟨c, _, hc⟩ := hev
        exact ⟨c, hc.symm⟩

/-- Witness for C1 (amended) at a concrete CONNECT request. -/
theorem C1_one_frame_after_decode_witness :
    read_from [4, 1, 0, 80, 9, 9, 9, 9, 0] = (.ok ⟨1, 80, [9, 9, 9, 9], []⟩, []) ∧
    ∃ f restEv,
      (handle .socks4 [4, 1, 0, 80, 9, 9, 9, 9, 0] (fun _ => .ok ()) (.ok ())
        []).clientEvents = .frame f :: restEv ∧
      ∀ ev ∈ restEv, ∃ c, ev = ClientEvent.payload c :=
  ⟨by decide,
    C1_one_frame_after_decode [4, 1, 0, 80, 9, 9, 9, 9, 0] ⟨1, 80, [9, 9, 9, 9], []⟩ []
      (fun _ => .ok ()) (.ok ()) [] (by decide)⟩

/-- Counterexample to C1 as stated: a negotiated connection attempt whose
request has version byte 5 ends with no HandshakeResponse frame written at
all (zero frames, not exactly one). -/
theorem C1_counterexample_no_frame_on_decode_failure :
    handle .socks4 [5] (fun _ => .ok ()) (.ok ()) [] =
      ⟨[], .error (.decodeFailed (.protocolVersionMismatch 5)), 0⟩ ∧
    (handle .socks4 [5] (fun _ => .ok ()) (.ok ()) []).clientEvents.countP isFrameEvent
      = 0 :=
  ⟨rfl, rfl⟩

/-- C2 (amended): in the outbound-connect-failure path the error of writing
the failure frame is swallowed and the session reports the original connect
error; in the non-CONNECT path the error of writing the rejection frame is
escalated and replaces the unsupported-command error as the session's
reported outcome. -/
theorem C2_frame_write_error_paths (inputA : List Nat) (reqA : Socks4Request)
    (restA : List Nat) (e : Nat) (w : Except Nat Unit) (sdA : List Nat)
    (inputB : List Nat) (reqB : Socks4Request) (restB : List Nat)
    (cf : Nat → Except Nat Unit) (we : Nat) (sdB : List Nat)
    (hdecA : read_from inputA = (.ok reqA, restA)) (hcmdA : reqA.command = SOCKS4_CONNECT)
    (hdecB : read_from inputB = (.ok reqB, restB))
    (hcmdB : reqB.command ≠ SOCKS4_CONNECT) :
    (handle .socks4 inputA (fun _ => .error e) w sdA).result =
      .error (.connectFailed e) ∧
    (handle .socks4 inputB cf (.error we) sdB).result =
      .error (.frameWriteFailed we) := by
  constructor
  · simp only [handle, hdecA]
    rw [if_neg (by simp [hcmdA])]
    simp [handleConnect]
  · simp only [handle, hdecB]
    rw [if_pos hcmdB]

/-- Witness for C2 (amended): a CONNECT request whose connect fails with
error 9 while the frame write fails with error 7, and a BIND request whose
rejection-frame write fails with error 7. -/
theorem C2_frame_write_error_paths_witness :
    read_from [4, 1, 0, 80, 9, 9, 9, 9, 0] = (.ok ⟨1, 80, [9, 9, 9, 9], []⟩, []) ∧
    (⟨1, 80, [9, 9, 9, 9], []⟩ : Socks4Request).command = SOCKS4_CONNECT ∧
    read_from [4, 2, 0, 80, 1, 2, 3, 4, 0] = (.ok ⟨2, 80, [1, 2, 3, 4], []⟩, []) ∧
    (⟨2, 80, [1, 2, 3, 4], []⟩ : Socks4Request).command ≠ SOCKS4_CONNECT ∧
    ((handle .socks4 [4, 1, 0, 80, 9, 9, 9, 9, 0] (fun _ => .error 9) (.error 7)
        []).result = .error (.connectFailed 9) ∧
    (handle .socks4 [4, 2, 0, 80, 1, 2, 3, 4, 0] (fun _ => .ok ()) (.error 7)
        []).result = .error (.frameWriteFailed 7)) :=
  ⟨by decide, by decide, by decide, by decide,
    C2_frame_write_error_paths [4, 1, 0, 80, 9, 9, 9, 9, 0] ⟨1, 80, [9, 9, 9, 9], []⟩ []
      9 (.error 7) [] [4, 2, 0, 80, 1, 2, 3, 4, 0] ⟨2, 80, [1, 2, 3, 4], []⟩ []
      (fun _ => .ok ()) 7 [] (by decide) (by decide) (by decide) (by decide)⟩

/-- Counterexample to C2 as stated: on a BIND request whose rejection-frame
write fails with error 7, the session's reported outcome is the write error,
not the original unsupported-command error. -/
theorem C2_counterexample_write_error_escalates :
    (handle .socks4 [4, 2, 0, 80, 1, 2, 3, 4, 0] (fun _ => .ok ()) (.error 7)
      []).result = .error (.frameWriteFailed 7) ∧
    (handle .socks4 [4, 2, 0, 80, 1, 2, 3, 4, 0] (fun _ => .ok ()) (.error 7)
      []).result ≠ .error (.unsupportedCommand 2) := by
  exact ⟨rfl, by decide⟩

/-- C7: in negotiated mode, when the outbound connect fails, the session
issues exactly the rejection-frame write to the client, terminates
reporting the original connect error, and makes exactly one outbound
connect attempt. -/
theorem C7_connect_failure_rejects_and_reports (input : List Nat) (req : Socks4Request)
    (rest : List Nat) (e : Nat) (w : Except Nat Unit) (sd : List Nat)
    (hdec : read_from input = (.ok req, rest)) (hcmd : req.command = SOCKS4_CONNECT) :
    handle .socks4 input (fun _ => .error e) w sd =
      ⟨[.frame Socks4Response.failure.write_to], .error (.connectFailed e), 1⟩ := by
  simp only [handle, hdec]
  rw [if_neg (by simp [hcmd])]
  simp [handleConnect]

/-- Witness for C7 at a concrete CONNECT request with connect error 9. -/
theorem C7_connect_failure_rejects_and_reports_witness :
    read_from [4, 1, 0, 80, 9, 9, 9, 9, 0] = (.ok ⟨1, 80, [9, 9, 9, 9], []⟩, []) ∧
    (⟨1, 80, [9, 9, 9, 9], []⟩ : Socks4Request).command = SOCKS4_CONNECT ∧
    handle .socks4 [4, 1, 0, 80, 9, 9, 9, 9, 0] (fun _ => .error 9) (.ok ()) [] =
      ⟨[.frame Socks4Response.failure.write_to], .error (.connectFailed 9), 1⟩ :=
  ⟨by decide, by decide,
    C7_connect_failure_rejects_and_reports [4, 1, 0, 80, 9, 9, 9, 9, 0]
      ⟨1, 80, [9, 9, 9, 9], []⟩ [] 9 (.ok ()) [] (by decide) (by decide)⟩

end SimpleTor
